import Mathlib

/-!
# Verification of the raiqub/data in-memory expiring store

Shallow embedding of the `memstore` package (src/memstore/store.go) together
with the `MemData` entry type (package `data`).  Go `time.Time` and
`time.Duration` are modelled as `Int` (nanosecond counts); Go `interface{}`
values are modelled as `Option V` for an arbitrary payload type `V`, with
`none` standing for Go's `nil`.  The map `map[string]Data` is modelled as an
association list; the Go map's unspecified iteration order is irrelevant
because every operation's net effect on the map is order independent.

Each operation takes the current instant `now : Int` explicitly, standing
for the calls to `time.Now()` made during that operation.

The locking behaviour of the operations is modelled separately as event
traces (`LockEvent`), mirroring the source line by line, with a checker
(`disciplined`) for the documented lock discipline.
-/

namespace Memstore

/-- Embeds `MemData` (package `data`): one stored value with its
expiration bookkeeping. -/
structure MemData (V : Type) where
  expireAt : Int
  lifetime : Int
  value : Option V
  deriving Repr, DecidableEq

/-- Embeds `MemData.IsExpired`: `time.Now().After(i.expireAt)`. -/
def MemData.isExpired (now : Int) (d : MemData V) : Bool :=
  now > d.expireAt

/-- Embeds `NewMemData`: `expireAt = time.Now().Add(lifetime)`. -/
def newMemData (now lifetime : Int) (value : Option V) : MemData V :=
  { expireAt := now + lifetime, lifetime := lifetime, value := value }

/-- Embeds `dot.LockStatus` as used by `Store.gc` and its callers. -/
inductive LockStatus where
  | unlocked
  | readLocked
  | writeLocked
  deriving Repr, DecidableEq

/-- Embeds the error values produced by the store: `dot.InvalidKeyError`,
`dot.DuplicatedKeyError`, `dot.NotSupportedError` and
`data.IndereferenceError`. -/
inductive StoreError where
  | invalidKey (key : String)
  | duplicatedKey (key : String)
  | notSupported (what : String)
  | indereference
  deriving Repr, DecidableEq

/-- Embeds `memstore.Store`: the entry map, default lifetime, transient
flag and the last-sweep timestamp.  The `sync.RWMutex` has no functional
content; the lock discipline is modelled by the event traces below. -/
structure Store (V : Type) where
  values : List (String × MemData V)
  lifetime : Int
  isTransient : Bool
  lastgc : Int
  deriving Repr, DecidableEq

/-- Association-list lookup, modelling `s.values[key]`. -/
def lookupKV (key : String) : List (String × MemData V) → Option (MemData V)
  | [] => none
  | (k, d) :: rest => if k = key then some d else lookupKV key rest

/-- Association-list in-place update, modelling mutation through the
`Data` interface pointer obtained from `s.values[key]`. -/
def updateKV (key : String) (d : MemData V) :
    List (String × MemData V) → List (String × MemData V)
  | [] => []
  | (k, e) :: rest =>
      if k = key then (k, d) :: updateKV key d rest
      else (k, e) :: updateKV key d rest

/-- Embeds `Store.gc` (src/memstore/store.go, lines 167–194).  Skips the
sweep entirely (returning `Unlocked`) when less than `minInterval =
s.lifetime / 5` has elapsed since `lastgc`; otherwise records `now` as the
last sweep time, deletes every expired entry, and reports `WriteLocked`
exactly when a deletion occurred (the loop upgraded the lock), else
`ReadLocked`.  Go's `time.Duration` division `s.lifetime / 5` is int64
division truncating toward zero, i.e. `Int.tdiv`. -/
def Store.gc (s : Store V) (now : Int) : Store V × LockStatus :=
  if s.lastgc + Int.tdiv s.lifetime 5 > now then
    (s, .unlocked)
  else
    ({ s with values := s.values.filter (fun kv => !kv.2.isExpired now),
              lastgc := now },
     if s.values.any (fun kv => kv.2.isExpired now) then .writeLocked
     else .readLocked)

/-- Embeds the destination argument `ref interface{}` of `Get` as seen by
`reflect`: either not a pointer at all (this includes a `nil` interface),
a nil pointer, or a usable pointer with its current pointee. -/
inductive Dest (V : Type) where
  | notPtr
  | nilPtr
  | ptr (contents : Option V)
  deriving Repr, DecidableEq

/-- Embeds `setValue` (src/memstore/store.go, lines 278–291): a nil source
returns success without touching the destination; a non-pointer or nil
destination fails with `IndereferenceError`; otherwise the value is copied
into the pointee. -/
def setValue (src : Option V) (dst : Dest V) : Dest V × Option StoreError :=
  match src with
  | none => (dst, none)
  | some v =>
      match dst with
      | .ptr _ => (.ptr (some v), none)
      | d => (d, some .indereference)

/-- Embeds `Store.Add` (src/memstore/store.go, lines 58–76): run the sweep,
fail with `DuplicatedKeyError` when the key is present, else insert a fresh
`MemData` with `expireAt = now + lifetime`. -/
def Store.Add (s : Store V) (key : String) (value : Option V) (now : Int) :
    Store V × Option StoreError :=
  match lookupKV key ((s.gc now).1).values with
  | some _ => ((s.gc now).1, some (.duplicatedKey key))
  | none =>
      ({ (s.gc now).1 with
         values := ((s.gc now).1).values
           ++ [(key, newMemData now ((s.gc now).1).lifetime value)] },
       none)

/-- Embeds `Store.Get` (src/memstore/store.go, lines 135–155): run the
sweep, look the key up (`unsafeGet` checks presence only, never expiry),
renew the found entry when the store is not transient (`SetLifetime` to the
store default, then `Hit`), then copy the stored value into the caller's
destination via `setValue`. -/
def Store.Get (s : Store V) (key : String) (ref : Dest V) (now : Int) :
    Store V × (Dest V × Option StoreError) :=
  match lookupKV key ((s.gc now).1).values with
  | none => ((s.gc now).1, (ref, some (.invalidKey key)))
  | some v =>
      if ((s.gc now).1).isTransient then
        ((s.gc now).1, setValue v.value ref)
      else
        ({ (s.gc now).1 with
           values := updateKV key
             { v with lifetime := ((s.gc now).1).lifetime,
                      expireAt := now + ((s.gc now).1).lifetime }
             ((s.gc now).1).values },
         setValue v.value ref)

/-- Embeds `Store.Set` (src/memstore/store.go, lines 200–222): run the
sweep, fail with `InvalidKeyError` when absent (`unsafeGet`), else replace
the value and renew unless transient. -/
def Store.Set (s : Store V) (key : String) (value : Option V) (now : Int) :
    Store V × Option StoreError :=
  match lookupKV key ((s.gc now).1).values with
  | none => ((s.gc now).1, some (.invalidKey key))
  | some v =>
      ({ (s.gc now).1 with
         values := updateKV key
           (if ((s.gc now).1).isTransient then { v with value := value }
            else { v with value := value,
                          lifetime := ((s.gc now).1).lifetime,
                          expireAt := now + ((s.gc now).1).lifetime })
           ((s.gc now).1).values },
       none)

/-- Embeds `Store.Delete` (src/memstore/store.go, lines 94–120): run the
sweep, fail with `InvalidKeyError` when absent (`unsafeGet`), else remove
the entry. -/
def Store.Delete (s : Store V) (key : String) (now : Int) :
    Store V × Option StoreError :=
  match lookupKV key ((s.gc now).1).values with
  | none => ((s.gc now).1, some (.invalidKey key))
  | some _ =>
      ({ (s.gc now).1 with
         values := ((s.gc now).1).values.filter (fun kv => kv.1 ≠ key) },
       none)

/-- Embeds `Store.Count` (src/memstore/store.go, lines 79–88): run the
sweep, release whatever lock it left, then read `len(s.values)`. -/
def Store.Count (s : Store V) (now : Int) : Store V × Nat :=
  ((s.gc now).1, ((s.gc now).1).values.length)

/-- Embeds the `data.LifetimeScope` constant `ScopeAll = LifetimeScope(0)`. -/
def ScopeAll : Int := 0
/-- `ScopeNewAndUpdated = LifetimeScope(1)`. -/
def ScopeNewAndUpdated : Int := 1
/-- `ScopeNew = LifetimeScope(2)`. -/
def ScopeNew : Int := 2

/-- Embeds `Store.SetLifetime` (src/memstore/store.go, lines 229–255):
`ScopeAll` runs the sweep and reassigns every remaining entry's `lifetime`
field (`MemData.SetLifetime` touches only that field), `ScopeNewAndUpdated`
mutates no entry, `ScopeNew` and unknown scopes fail with
`NotSupportedError`; on success the store default `lifetime` becomes `d`. -/
def Store.SetLifetime (s : Store V) (d : Int) (scope : Int) (now : Int) :
    Store V × Option StoreError :=
  if scope = ScopeAll then
    ({ (s.gc now).1 with
       values := ((s.gc now).1).values.map
         (fun (kv : String × MemData V) => (kv.1, { kv.2 with lifetime := d })),
       lifetime := d },
     none)
  else if scope = ScopeNewAndUpdated then
    ({ s with lifetime := d }, none)
  else if scope = ScopeNew then
    (s, some (.notSupported "ScopeNew"))
  else
    (s, some (.notSupported (toString scope)))

/-! ## Lock-event model

The spec's lock discipline ("all reads of `entries` under at least a read
lock, all mutations under the write lock, every caller releases exactly the
lock the sweep returns") is about the order of lock and map operations, so
it is modelled by traces of events, one trace per operation, mirroring the
source line by line. -/

/-- One lock or map access event. -/
inductive LockEvent where
  | rlock
  | runlock
  | wlock
  | wunlock
  | readMap
  | writeMap
  deriving Repr, DecidableEq

/-- Trace of the sweep loop of `Store.gc` (lines 176–187): one `readMap`
per examined entry (`s.values[i].IsExpired()`), a single read-to-write
upgrade before the first deletion, one `writeMap` per deletion. -/
def gcScanTrace (now : Int) :
    List (String × MemData V) → Bool → List LockEvent
  | [], _ => []
  | (_, d) :: rest, writeLocked =>
      LockEvent.readMap ::
        (if d.isExpired now then
          (if writeLocked then [] else [LockEvent.runlock, LockEvent.wlock])
            ++ LockEvent.writeMap :: gcScanTrace now rest true
        else gcScanTrace now rest writeLocked)

/-- Trace and returned lock status of `Store.gc` (lines 167–194): nothing
at all when the minimum-interval guard skips the sweep (returns
`Unlocked`), otherwise an `RLock` followed by the scan. -/
def gcTrace (s : Store V) (now : Int) : List LockEvent × LockStatus :=
  if s.lastgc + Int.tdiv s.lifetime 5 > now then ([], .unlocked)
  else
    (LockEvent.rlock :: gcScanTrace now s.values false,
     if s.values.any (fun kv => kv.2.isExpired now) then .writeLocked
     else .readLocked)

/-- Trace of `Store.Count` (lines 79–88): release whatever lock the sweep
returned (the `switch`, lines 80–85, with no `defer`), then read
`len(s.values)` (line 87). -/
def countTrace (s : Store V) (now : Int) : List LockEvent :=
  (gcTrace s now).1 ++
    (match (gcTrace s now).2 with
     | .writeLocked => [LockEvent.wunlock]
     | .readLocked => [LockEvent.runlock]
     | .unlocked => []) ++
    [LockEvent.readMap]

/-- Trace of `Store.Add` (lines 58–76): adapt the sweep's lock state to a
write lock (lines 59–65), check for a duplicate and insert under it, and
release once at the end (`defer s.mutex.Unlock()`, line 66). -/
def addTrace (s : Store V) (key : String) (now : Int) : List LockEvent :=
  (gcTrace s now).1 ++
    (match (gcTrace s now).2 with
     | .readLocked => [LockEvent.runlock, LockEvent.wlock]
     | .unlocked => [LockEvent.wlock]
     | .writeLocked => []) ++
    [LockEvent.readMap] ++
    (match lookupKV key ((s.gc now).1).values with
     | some _ => []
     | none => [LockEvent.writeMap]) ++
    [LockEvent.wunlock]

/-- Current lock mode of the single `sync.RWMutex`, from the point of view
of the operation being traced. -/
inductive LockMode where
  | noLock
  | readHeld
  | writeHeld
  deriving Repr, DecidableEq

/-- Checks the documented lock discipline along a trace: the map is read
only while at least a read lock is held and written only under the write
lock; a lock is acquired only when none is held and released exactly when
held (so every acquisition is released exactly once, never twice). -/
def disciplined : LockMode → List LockEvent → Bool
  | _, [] => true
  | .noLock, .rlock :: rest => disciplined .readHeld rest
  | .noLock, .wlock :: rest => disciplined .writeHeld rest
  | .readHeld, .runlock :: rest => disciplined .noLock rest
  | .writeHeld, .wunlock :: rest => disciplined .noLock rest
  | .readHeld, .readMap :: rest => disciplined .readHeld rest
  | .writeHeld, .readMap :: rest => disciplined .writeHeld rest
  | .writeHeld, .writeMap :: rest => disciplined .writeHeld rest
  | _, _ => false

/-! ## Helper lemmas about the association-list operations and the sweep -/

theorem lookupKV_append_self (l : List (String × MemData V)) (k : String)
    (d : MemData V) (h : lookupKV k l = none) :
    lookupKV k (l ++ [(k, d)]) = some d := by
  induction l with
  | nil => simp [lookupKV]
  | cons kv rest ih =>
      obtain ⟨k', e⟩ := kv
      rw [lookupKV] at h
      rw [List.cons_append, lookupKV]
      by_cases hk : k' = k
      · simp [hk] at h
      · simp only [hk, if_false]
        exact ih (by simpa [hk] using h)

theorem lookupKV_none_filter (p : String × MemData V → Bool)
    (k : String) (l : List (String × MemData V))
    (h : lookupKV k l = none) : lookupKV k (l.filter p) = none := by
  induction l with
  | nil => simp [lookupKV]
  | cons kv rest ih =>
      obtain ⟨k', e⟩ := kv
      rw [lookupKV] at h
      by_cases hk : k' = k
      · simp [hk] at h
      · have h' := ih (by simpa [hk] using h)
        by_cases hp : p (k', e) = true
        · rw [List.filter_cons_of_pos hp, lookupKV]
          simp [hk, h']
        · rw [List.filter_cons_of_neg (by simpa using hp)]
          exact h'

theorem lookupKV_filter_of_keep (p : String × MemData V → Bool)
    (k : String) (e : MemData V) (l : List (String × MemData V))
    (h : lookupKV k l = some e) (hp : p (k, e) = true) :
    lookupKV k (l.filter p) = some e := by
  induction l with
  | nil => simp [lookupKV] at h
  | cons kv rest ih =>
      obtain ⟨k', e'⟩ := kv
      rw [lookupKV] at h
      by_cases hk : k' = k
      · subst hk
        have he : e' = e := by simpa using h
        subst he
        rw [List.filter_cons_of_pos hp, lookupKV]
        simp
      · have h' := ih (by simpa [hk] using h)
        by_cases hq : p (k', e') = true
        · rw [List.filter_cons_of_pos hq, lookupKV]
          simp [hk, h']
        · rw [List.filter_cons_of_neg (by simpa using hq)]
          exact h'

theorem lookupKV_updateKV_self (k : String) (d e : MemData V)
    (l : List (String × MemData V)) (h : lookupKV k l = some e) :
    lookupKV k (updateKV k d l) = some d := by
  induction l with
  | nil => simp [lookupKV] at h
  | cons kv rest ih =>
      obtain ⟨k', e'⟩ := kv
      rw [lookupKV] at h
      rw [updateKV]
      by_cases hk : k' = k
      · simp [hk, lookupKV]
      · rw [if_neg hk, lookupKV]
        rw [if_neg hk]
        exact ih (by simpa [hk] using h)

theorem lookupKV_map_setLifetime (d : Int) (k : String)
    (l : List (String × MemData V)) :
    lookupKV k (l.map (fun (kv : String × MemData V) =>
        (kv.1, { kv.2 with lifetime := d }))) =
      (lookupKV k l).map (fun e => { e with lifetime := d }) := by
  induction l with
  | nil => simp [lookupKV]
  | cons kv rest ih =>
      obtain ⟨k', e'⟩ := kv
      rw [List.map_cons, lookupKV, lookupKV]
      by_cases hk : k' = k
      · simp [hk]
      · simp only [hk, if_false]
        exact ih

theorem gc_lifetime (s : Store V) (now : Int) :
    ((s.gc now).1).lifetime = s.lifetime := by
  rw [Store.gc]
  split <;> rfl

theorem gc_isTransient (s : Store V) (now : Int) :
    ((s.gc now).1).isTransient = s.isTransient := by
  rw [Store.gc]
  split <;> rfl

theorem gc_lookup_none (s : Store V) (now : Int) (k : String)
    (h : lookupKV k s.values = none) :
    lookupKV k ((s.gc now).1).values = none := by
  rw [Store.gc]
  split
  · exact h
  · exact lookupKV_none_filter _ _ _ h

theorem gc_lookup_live (s : Store V) (now : Int) (k : String) (e : MemData V)
    (h : lookupKV k s.values = some e) (hl : e.isExpired now = false) :
    lookupKV k ((s.gc now).1).values = some e := by
  rw [Store.gc]
  split
  · exact h
  · exact lookupKV_filter_of_keep _ _ _ _ h (by simp [hl])

theorem get_snd_of_found (s : Store V) (k : String) (e : MemData V)
    (ref : Dest V) (now : Int)
    (hfound : lookupKV k ((s.gc now).1).values = some e) :
    (s.Get k ref now).2 = setValue e.value ref := by
  unfold Store.Get
  rw [hfound]
  split
  next heq => exact Option.noConfusion heq
  next v heq =>
      injection heq with h
      subst h
      split <;> rfl

theorem get_fst_lookup_of_found (s : Store V) (k : String) (e : MemData V)
    (ref : Dest V) (now : Int)
    (hfound : lookupKV k ((s.gc now).1).values = some e) :
    lookupKV k ((s.Get k ref now).1).values =
      some (if s.isTransient then e
            else { e with lifetime := s.lifetime,
                          expireAt := now + s.lifetime }) := by
  unfold Store.Get
  rw [hfound]
  split
  next heq => exact Option.noConfusion heq
  next v heq =>
      injection heq with h
      subst h
      rw [gc_isTransient]
      by_cases ht : s.isTransient = true
      · rw [if_pos ht, if_pos ht]
        exact hfound
      · rw [if_neg ht, if_neg ht]
        dsimp only
        have hup := lookupKV_updateKV_self k
          { e with lifetime := ((s.gc now).1).lifetime,
                   expireAt := now + ((s.gc now).1).lifetime }
          e ((s.gc now).1).values hfound
        rw [gc_lifetime] at hup
        rw [gc_lifetime]
        exact hup

theorem set_result_of_found (s : Store V) (k : String) (e : MemData V)
    (v : Option V) (now : Int)
    (hfound : lookupKV k ((s.gc now).1).values = some e) :
    (s.Set k v now).2 = none ∧
    lookupKV k ((s.Set k v now).1).values =
      some (if s.isTransient then { e with value := v }
            else { e with value := v, lifetime := s.lifetime,
                          expireAt := now + s.lifetime }) := by
  unfold Store.Set
  rw [hfound]
  split
  next heq => exact Option.noConfusion heq
  next w heq =>
      injection heq with h
      subst h
      refine ⟨rfl, ?_⟩
      rw [gc_isTransient]
      by_cases ht : s.isTransient = true
      · rw [if_pos ht, if_pos ht]
        dsimp only
        exact lookupKV_updateKV_self k { e with value := v } e
          ((s.gc now).1).values hfound
      · rw [if_neg ht, if_neg ht]
        dsimp only
        have hup := lookupKV_updateKV_self k
          { e with value := v, lifetime := ((s.gc now).1).lifetime,
                   expireAt := now + ((s.gc now).1).lifetime }
          e ((s.gc now).1).values hfound
        rw [gc_lifetime] at hup
        rw [gc_lifetime]
        exact hup

/-! ## Concrete stores used as inputs of the claim theorems -/

/-- A store whose key `k` is logically expired at time 101 (expireAt 100)
but whose last sweep ran at 95, so with lifetime 100 the minimum-interval
guard (100/5 = 20) skips the sweep until time 115. -/
def storeC1 : Store Int :=
  { values := [("k", { expireAt := 100, lifetime := 100, value := some 42 })],
    lifetime := 100, isTransient := false, lastgc := 95 }

/-- A store holding one live entry (expireAt 100) with lifetime 10. -/
def storeC2 : Store Int :=
  { values := [("k", { expireAt := 100, lifetime := 10, value := some 7 })],
    lifetime := 10, isTransient := false, lastgc := 0 }

/-- A store with a single entry that is still live at time 3. -/
def storeC3 : Store Int :=
  { values := [("a", { expireAt := 50, lifetime := 10, value := some 1 })],
    lifetime := 10, isTransient := false, lastgc := 0 }

/-- An empty store with default lifetime 10. -/
def storeC4 : Store Int :=
  { values := [], lifetime := 10, isTransient := false, lastgc := 0 }

/-- A store holding one live entry under key `k`. -/
def storeC5 : Store Int :=
  { values := [("k", { expireAt := 100, lifetime := 10, value := some 1 })],
    lifetime := 10, isTransient := false, lastgc := 0 }

/-- A non-transient store with one live entry and default lifetime 7. -/
def storeC6 : Store Int :=
  { values := [("k", { expireAt := 100, lifetime := 10, value := some 1 })],
    lifetime := 7, isTransient := false, lastgc := 0 }

/-- The transient twin of `storeC6`. -/
def storeC6t : Store Int :=
  { values := [("k", { expireAt := 100, lifetime := 10, value := some 1 })],
    lifetime := 7, isTransient := true, lastgc := 0 }

/-- A store with one expired (expireAt 5) and one live (expireAt 50) entry
at time 20. -/
def storeC7 : Store Int :=
  { values := [("a", { expireAt := 5, lifetime := 10, value := some 1 }),
               ("b", { expireAt := 50, lifetime := 10, value := some 2 })],
    lifetime := 10, isTransient := false, lastgc := 0 }

/-- An empty store with lifetime 10, last swept at time 0. -/
def storeC8 : Store Int :=
  { values := [], lifetime := 10, isTransient := false, lastgc := 0 }

/-- A store whose live entry under `k` stores the nil value. -/
def storeC10 : Store Int :=
  { values := [("k", { expireAt := 100, lifetime := 10, value := none })],
    lifetime := 10, isTransient := false, lastgc := 0 }

/-! ## The claims -/

/-- **C1.** The claim fails on the code: `unsafeGet` checks only presence in
the map, never expiry, so when the minimum-interval guard skips the sweep an
expired-but-still-present entry is visible.  At `storeC1`, time 101, key `k`
is expired (101 > 100) yet `Get` succeeds, copies the value 42 into the
destination and renews the entry (expireAt becomes 201), and `Set` and
`Delete` also succeed, instead of all three failing with `InvalidKey`. -/
theorem get_returns_expired_entry :
    (MemData.isExpired 101
      { expireAt := 100, lifetime := 100, value := some (42 : Int) } = true) ∧
    storeC1.Get "k" (.ptr none) 101 =
      ({ values := [("k", { expireAt := 201, lifetime := 100, value := some 42 })],
         lifetime := 100, isTransient := false, lastgc := 95 },
       (.ptr (some 42), none)) ∧
    (storeC1.Set "k" (some 7) 101).2 = none ∧
    (storeC1.Delete "k" 101).2 = none := by decide

/-- **C2 counterexample.** The claim that `SetLifetime(d, ScopeAll)`
recomputes each entry's `expireAt` so that its remaining life is
immediately extended to `d` is false: at `storeC2`, time 50, after
`SetLifetime(1000, ScopeAll)` the entry's lifetime is 1000 but its
`expireAt` is still 100 — not `now + d = 1050` — so the remaining life is
50, not 1000. -/
theorem setLifetimeAll_does_not_extend :
    (storeC2.SetLifetime 1000 ScopeAll 50).2 = none ∧
    lookupKV "k" ((storeC2.SetLifetime 1000 ScopeAll 50).1).values =
      some { expireAt := 100, lifetime := 1000, value := some 7 } ∧
    ¬ ((100 : Int) = 50 + 1000) := by decide

/-- **C2 (amended).** `SetLifetime(d, ScopeAll)` always succeeds and
reassigns the store default and, for every entry surviving the initial
sweep, that entry's `lifetime` field to `d`, leaving its `expireAt` and
value unchanged (the remaining life is extended to `d` only at the entry's
next renewing access); every entry live at the call survives with its key,
and no new keys appear. -/
theorem setLifetimeAll_spec (s : Store V) (d now : Int) :
    (s.SetLifetime d ScopeAll now).2 = none ∧
    ((s.SetLifetime d ScopeAll now).1).lifetime = d ∧
    (∀ k e, lookupKV k s.values = some e → e.isExpired now = false →
      lookupKV k ((s.SetLifetime d ScopeAll now).1).values =
        some { e with lifetime := d }) ∧
    (∀ k, lookupKV k s.values = none →
      lookupKV k ((s.SetLifetime d ScopeAll now).1).values = none) := by
  rw [Store.SetLifetime, if_pos rfl]
  refine ⟨rfl, rfl, ?_, ?_⟩
  · intro k e hk hl
    dsimp only
    rw [lookupKV_map_setLifetime, gc_lookup_live s now k e hk hl]
    rfl
  · intro k hk
    dsimp only
    rw [lookupKV_map_setLifetime, gc_lookup_none s now k hk]
    rfl

/-- Witness for the amended C2 at a concrete input: the surviving entry
keeps `expireAt = 100` and gets `lifetime = 1000`. -/
theorem setLifetimeAll_spec_witness :
    ((storeC2.SetLifetime 1000 ScopeAll 50).1).lifetime = 1000 ∧
    lookupKV "k" ((storeC2.SetLifetime 1000 ScopeAll 50).1).values =
      some { expireAt := 100, lifetime := 1000, value := some 7 } :=
  ⟨(setLifetimeAll_spec storeC2 1000 50).2.1,
   (setLifetimeAll_spec storeC2 1000 50).2.2.1 "k"
     { expireAt := 100, lifetime := 10, value := some 7 }
     (by decide) (by decide)⟩

/-- **C3.** The claim fails on the code: `Count` (unlike the other
operations, which use `defer`) releases whatever lock the sweep returned
*before* reading `len(s.values)`, so its map read happens with no lock
held.  At `storeC3`, time 3, the sweep returns read-locked and Count's
trace is `rlock, readMap, runlock, readMap`: the final map-length read
occurs after the read lock was released, which the lock-discipline checker
rejects. -/
theorem count_reads_len_unlocked :
    countTrace storeC3 3 =
      [LockEvent.rlock, LockEvent.readMap, LockEvent.runlock,
       LockEvent.readMap] ∧
    disciplined .noLock (countTrace storeC3 3) = false := by decide

/-- In contrast, `Add`'s trace at the same store obeys the discipline: it
adapts the sweep's lock state to a write lock, performs its map accesses
under it and releases it exactly once at the end. -/
theorem addTrace_disciplined_example :
    disciplined .noLock (addTrace storeC3 "b" 3) = true := by decide

/-- **C4.** For every key `k` not present and every (typed, non-nil) value
`v`, `Add(k, v)` succeeds and an immediate `Get(k, dst)` with `dst` a
usable pointer, within one lifetime window and with no intervening
operations, succeeds and populates `dst` with `v`. -/
theorem add_then_get (s : Store V) (k : String) (v : V) (c : Option V)
    (t₁ t₂ : Int)
    (habsent : lookupKV k s.values = none)
    (hwin : t₂ ≤ t₁ + s.lifetime) :
    (s.Add k (some v) t₁).2 = none ∧
    ((s.Add k (some v) t₁).1.Get k (.ptr c) t₂).2 =
      (Dest.ptr (some v), none) := by
  have h0 := gc_lookup_none s t₁ k habsent
  have hAdd : s.Add k (some v) t₁ =
      ({ (s.gc t₁).1 with
         values := ((s.gc t₁).1).values
           ++ [(k, newMemData t₁ ((s.gc t₁).1).lifetime (some v))] },
       none) := by
    unfold Store.Add
    rw [h0]
  refine ⟨by rw [hAdd], ?_⟩
  rw [hAdd]
  have hlook : lookupKV k
      (((s.Add k (some v) t₁).1).values) =
      some (newMemData t₁ s.lifetime (some v)) := by
    rw [hAdd]
    dsimp only
    rw [gc_lifetime]
    exact lookupKV_append_self _ _ _ h0
  rw [hAdd] at hlook
  have hlive : (newMemData t₁ s.lifetime (some v)).isExpired t₂ = false := by
    simp only [newMemData, MemData.isExpired]
    simp only [decide_eq_false_iff_not, not_lt]
    exact hwin
  have hfound := gc_lookup_live _ t₂ k _ hlook hlive
  rw [get_snd_of_found _ k _ (.ptr c) t₂ hfound]
  rfl

/-- Witness for C4 at a concrete input: `Add "a" 5` at time 3 into the
empty `storeC4`, then `Get "a"` at time 8. -/
theorem add_then_get_witness :
    (storeC4.Add "a" (some (5 : Int)) 3).2 = none ∧
    ((storeC4.Add "a" (some 5) 3).1.Get "a" (.ptr none) 8).2 =
      (Dest.ptr (some 5), none) :=
  add_then_get storeC4 "a" 5 none 3 8 (by decide) (by decide)

/-- **C5.** Adding a key that is already present with a live entry fails
with `DuplicatedKey` and leaves that entry — value and `expireAt` — exactly
as it was. -/
theorem duplicate_add_unchanged (s : Store V) (k : String) (e : MemData V)
    (v₂ : Option V) (now : Int)
    (hfound : lookupKV k s.values = some e)
    (hlive : e.isExpired now = false) :
    (s.Add k v₂ now).2 = some (.duplicatedKey k) ∧
    lookupKV k ((s.Add k v₂ now).1).values = some e := by
  have h1 := gc_lookup_live s now k e hfound hlive
  unfold Store.Add
  rw [h1]
  exact ⟨rfl, h1⟩

/-- Witness for C5 at a concrete input. -/
theorem duplicate_add_unchanged_witness :
    (storeC5.Add "k" (some 2) 50).2 = some (.duplicatedKey "k") ∧
    lookupKV "k" ((storeC5.Add "k" (some 2) 50).1).values =
      some { expireAt := 100, lifetime := 10, value := some 1 } :=
  duplicate_add_unchanged storeC5 "k"
    { expireAt := 100, lifetime := 10, value := some 1 }
    (some 2) 50 (by decide) (by decide)

/-- **C6.** On a transient store, `Get` leaves a found live entry entirely
unchanged and `Set` changes only its value; on a non-transient store, both
set the entry's `lifetime` to the store's current default and its
`expireAt` to `now + lifetime`. -/
theorem renewal_policy (s : Store V) (k : String) (e : MemData V)
    (ref : Dest V) (v : Option V) (now : Int)
    (hfound : lookupKV k s.values = some e)
    (hlive : e.isExpired now = false) :
    lookupKV k ((s.Get k ref now).1).values =
      some (if s.isTransient then e
            else { e with lifetime := s.lifetime,
                          expireAt := now + s.lifetime }) ∧
    (s.Set k v now).2 = none ∧
    lookupKV k ((s.Set k v now).1).values =
      some (if s.isTransient then { e with value := v }
            else { e with value := v, lifetime := s.lifetime,
                          expireAt := now + s.lifetime }) := by
  have h1 := gc_lookup_live s now k e hfound hlive
  exact ⟨get_fst_lookup_of_found s k e ref now h1,
         (set_result_of_found s k e v now h1).1,
         (set_result_of_found s k e v now h1).2⟩

/-- Witness for C6 at concrete inputs: a non-transient `Get` renews
(`expireAt` becomes 57 = 50 + 7), a transient `Set` keeps `expireAt = 100`
and `lifetime = 10` and only replaces the value. -/
theorem renewal_policy_witness :
    lookupKV "k" ((storeC6.Get "k" (.ptr none) 50).1).values =
      some { expireAt := 57, lifetime := 7, value := some (1 : Int) } ∧
    lookupKV "k" ((storeC6t.Set "k" (some 9) 50).1).values =
      some { expireAt := 100, lifetime := 10, value := some 9 } :=
  ⟨(renewal_policy storeC6 "k"
      { expireAt := 100, lifetime := 10, value := some 1 }
      (.ptr none) (some 9) 50 (by decide) (by decide)).1,
   (renewal_policy storeC6t "k"
      { expireAt := 100, lifetime := 10, value := some 1 }
      (.ptr none) (some 9) 50 (by decide) (by decide)).2.2⟩

/-- **C7.** When the sweep is not skipped by the interval guard, it removes
exactly the expired entries and keeps every non-expired entry, and it
returns the write-lock-held indicator iff at least one deletion occurred,
otherwise the read-lock-held indicator. -/
theorem sweep_exact (s : Store V) (now : Int)
    (hrun : s.lastgc + Int.tdiv s.lifetime 5 ≤ now) :
    (∀ k e, ((k, e) ∈ ((s.gc now).1).values ↔
      ((k, e) ∈ s.values ∧ e.isExpired now = false))) ∧
    ((s.gc now).2 = .writeLocked ↔
      ∃ kv ∈ s.values, kv.2.isExpired now = true) ∧
    ((s.gc now).2 = .readLocked ↔
      ∀ kv ∈ s.values, kv.2.isExpired now = false) := by
  have hng : ¬ (s.lastgc + Int.tdiv s.lifetime 5 > now) := by omega
  rw [Store.gc, if_neg hng]
  refine ⟨?_, ?_, ?_⟩
  · intro k e
    simp [List.mem_filter]
  · dsimp only
    by_cases hany : s.values.any (fun kv => kv.2.isExpired now) = true
    · rw [if_pos hany]
      simp only [List.any_eq_true] at hany
      simpa using hany
    · rw [if_neg hany]
      simp only [List.any_eq_true, not_exists] at hany
      simpa using hany
  · dsimp only
    by_cases hany : s.values.any (fun kv => kv.2.isExpired now) = true
    · rw [if_pos hany]
      simp only [List.any_eq_true] at hany
      obtain ⟨kv, hmem, hexp⟩ := hany
      constructor
      · intro h; exact absurd h (by simp)
      · intro hall
        exact absurd (hall kv hmem) (by simp [hexp])
    · rw [if_neg hany]
      simp only [List.any_eq_true, not_exists] at hany
      constructor
      · intro _ kv hmem
        have := hany kv
        simp only [not_and] at this
        exact Bool.eq_false_iff.mpr (fun hc => (this hmem) hc)
      · intro _; rfl

/-- Witness for C7 at a concrete input: at `storeC7`, time 20, entry `a`
(expired) is gone, entry `b` (live) remains, and the sweep reports the
write lock because a deletion occurred. -/
theorem sweep_exact_witness :
    (("b", ({ expireAt := 50, lifetime := 10, value := some 2 } : MemData Int))
        ∈ ((storeC7.gc 20).1).values ↔
      (("b", ({ expireAt := 50, lifetime := 10, value := some 2 } : MemData Int))
          ∈ storeC7.values ∧
        ({ expireAt := 50, lifetime := 10, value := some 2 } : MemData Int).isExpired
          20 = false)) ∧
    ((storeC7.gc 20).2 = .writeLocked ↔
      ∃ kv ∈ storeC7.values, kv.2.isExpired 20 = true) :=
  ⟨(sweep_exact storeC7 20 (by decide)).1 "b" _,
   (sweep_exact storeC7 20 (by decide)).2.1⟩

/-- **C8.** The sweep is skipped entirely — leaving the store untouched and
returning the no-lock-held indicator — iff strictly less than one fifth of
the current lifetime (`s.lifetime / 5` in Go's truncating integer
arithmetic) has elapsed since the previous sweep; when it does run, it
records the current time as the last-sweep time. -/
theorem gc_interval_guard (s : Store V) (now : Int) :
    ((s.gc now).2 = .unlocked ↔ now - s.lastgc < Int.tdiv s.lifetime 5) ∧
    ((s.gc now).2 = .unlocked → (s.gc now).1 = s) ∧
    ((s.gc now).2 ≠ .unlocked → ((s.gc now).1).lastgc = now) := by
  rw [Store.gc]
  by_cases h : s.lastgc + Int.tdiv s.lifetime 5 > now
  · rw [if_pos h]
    exact ⟨⟨fun _ => by omega, fun _ => rfl⟩, fun _ => rfl,
           fun hn => absurd rfl hn⟩
  · rw [if_neg h]
    have h2 : (if s.values.any (fun kv => kv.2.isExpired now) = true then
          LockStatus.writeLocked else LockStatus.readLocked) ≠
        LockStatus.unlocked := by
      split <;> simp
    exact ⟨⟨fun hc => absurd hc h2, fun hlt => absurd hlt (by omega)⟩,
           fun hc => absurd hc h2, fun _ => rfl⟩

/-- Witness for C8 at concrete inputs: at time 1 (elapsed 1 < 10/5 = 2) the
sweep is skipped and the store is untouched; at time 100 it runs and
records 100 as the last-sweep time. -/
theorem gc_interval_guard_witness :
    (storeC8.gc 1).1 = storeC8 ∧ ((storeC8.gc 100).1).lastgc = 100 :=
  ⟨(gc_interval_guard storeC8 1).2.1 (by decide),
   (gc_interval_guard storeC8 100).2.2 (by decide)⟩

/-- **C9.** For every duration `d`, `SetLifetime(d, ScopeNew)` fails with a
`NotSupportedError` and leaves the store — default lifetime and every entry
— exactly unchanged, while `SetLifetime(d, ScopeNewAndUpdated)` succeeds
and changes only the default lifetime used for future `Add`/renewal,
mutating no entry. -/
theorem setLifetime_scopeNew_unsupported (s : Store V) (d now : Int) :
    s.SetLifetime d ScopeNew now = (s, some (.notSupported "ScopeNew")) ∧
    s.SetLifetime d ScopeNewAndUpdated now = ({ s with lifetime := d }, none) := by
  constructor <;> rfl

/-- **C10.** When a live entry stores the nil value, `Get` succeeds and the
destination is left completely unchanged, for every destination — even a
non-pointer or nil-pointer one — because `setValue` returns before the
pointer check when the source is nil. -/
theorem get_nil_value_skips_copy (s : Store V) (k : String) (e : MemData V)
    (dst : Dest V) (now : Int)
    (hfound : lookupKV k s.values = some e)
    (hnil : e.value = none)
    (hlive : e.isExpired now = false) :
    (s.Get k dst now).2 = (dst, none) := by
  have h1 := gc_lookup_live s now k e hfound hlive
  rw [get_snd_of_found s k e dst now h1, hnil]
  rfl

/-- Witness for C10 at a concrete input: the destination is not even a
pointer, yet `Get` succeeds and returns it untouched. -/
theorem get_nil_value_skips_copy_witness :
    (storeC10.Get "k" .notPtr 50).2 = (Dest.notPtr, none) :=
  get_nil_value_skips_copy storeC10 "k"
    { expireAt := 100, lifetime := 10, value := none }
    .notPtr 50 (by decide) rfl (by decide)

end Memstore
